import Mathlib

/-!
Weather dashboard: the derived-state core of `frontend/src/components/Weather.js`.

A shallow embedding of the `Weather` component: the condition classifier
`getWeatherKey`, the background-phase effect, the ambient-sound effect with its
deadline timer and cleanup, the live-clock effect, and the three fetch handlers.

Strings are Lean strings; `toLowerCase` and `includes` are the JavaScript string
methods restricted to what the component uses (ASCII needles).  The component's
`useState` cells and the `audioRef` cell are fields of a record; an effect with a
dependency array is a function run by every event that changes a dependency, its
cleanup first.
-/

namespace Weather

/-! ## Categories and phases -/

/-- The six keys of `weatherAnimations` and `weatherSounds`. -/
inductive Category where
  | clear
  | clouds
  | rain
  | thunderstorm
  | snow
  | mist
  deriving DecidableEq, Repr

/-- The four keys of `bgGradients`, the values of the `bgPhase` cell. -/
inductive Phase where
  | day
  | sunrise
  | sunset
  | night
  deriving DecidableEq, Repr

/-- The table `weatherSounds`. -/
def weatherSounds : Category → String
  | .clear => "/sounds/birds.mp3"
  | .clouds => "/sounds/wind.mp3"
  | .rain => "/sounds/rain.mp3"
  | .thunderstorm => "/sounds/thunder.mp3"
  | .snow => "/sounds/snow.mp3"
  | .mist => "/sounds/calm.mp3"

/-! ## String methods -/

/-- The method `String.prototype.toLowerCase` on one character: `A`..`Z` go to `a`..`z`,
every other character is kept.  The host also lower-cases letters outside ASCII;
of those only U+0130 (to `i` followed by U+0307) and U+212A (to `k`) yield an
ASCII letter, and neither can complete one of the six substrings `getWeatherKey`
looks for, so keeping them does not change what `getWeatherKey` returns. -/
def lowerChar (c : Char) : Char :=
  if 65 ≤ c.toNat ∧ c.toNat ≤ 90 then Char.ofNat (c.toNat + 32) else c

/-- The method `String.prototype.toLowerCase`, character by character. -/
def toLowerCase (s : String) : String := ⟨s.data.map lowerChar⟩

/-- Whether the characters `s` begin with the characters `p`. -/
def startsWithChars : List Char → List Char → Bool
  | _, [] => true
  | [], _ :: _ => false
  | c :: cs, p :: ps => c == p && startsWithChars cs ps

/-- Whether `needle` occurs in `s` at some position, scanning left to right. -/
def includesChars : List Char → List Char → Bool
  | [], needle => needle.isEmpty
  | c :: cs, needle => startsWithChars (c :: cs) needle || includesChars cs needle

/-- The method `String.prototype.includes`. -/
def includes (s needle : String) : Bool := includesChars s.data needle.data

/-! ## `getWeatherKey` -/

/-- The function `getWeatherKey(condition)`.  The argument is `none` for an absent
(`null`/`undefined`) condition; the empty string is falsy as well. -/
def getWeatherKey (condition : Option String) : Category :=
  match condition with
  | none => .clear
  | some c =>
    if c = "" then .clear
    else
      let key := toLowerCase c
      if includes key "rain" then .rain
      else if includes key "thunder" then .thunderstorm
      else if includes key "snow" then .snow
      else if includes key "mist" || includes key "fog" then .mist
      else if includes key "cloud" then .clouds
      else .clear

/-- One rule of the classifier: the substrings that trigger it and its category. -/
structure Rule where
  needles : List String
  category : Category

/-- The ordered rule list of the classifier, as the specification words it. -/
def classifierRules : List Rule :=
  [ ⟨["rain"], .rain⟩,
    ⟨["thunder"], .thunderstorm⟩,
    ⟨["snow"], .snow⟩,
    ⟨["mist", "fog"], .mist⟩,
    ⟨["cloud"], .clouds⟩ ]

/-- Whether `key` contains one of the rule's substrings as a contiguous block. -/
def Rule.fires (r : Rule) (key : String) : Bool :=
  r.needles.any fun n => decide (n.data <:+: key.data)

/-- The specification's classifier on an already lower-cased string: the category
of the first rule that fires, `clear` when none does. -/
def firstMatch (key : String) : Category :=
  match classifierRules.find? fun r => r.fires key with
  | some r => r.category
  | none => .clear

/-- A contiguous block of `c` spells `word` once letter case is ignored. -/
def ContainsAnyCase (c : String) (word : String) : Prop :=
  ∃ w : List Char, w <:+: c.data ∧ w.map lowerChar = word.data

/-! ## Background phase -/

/-- A `Date` value, as far as the component reads it. -/
structure JsDate where
  hours : Nat
  minutes : Nat
  seconds : Nat
  deriving DecidableEq, Repr

/-- The method `Date.prototype.getHours`. -/
def JsDate.getHours (d : JsDate) : Nat := d.hours

/-- The weather payload `res.data`, as far as the component's logic reads it;
`sunrise` and `sunset` are the values of `new Date(weather.sunrise)` and
`new Date(weather.sunset)`. -/
structure Snapshot where
  city : String
  country : String
  condition : Option String
  sunrise : JsDate
  sunset : JsDate
  deriving DecidableEq, Repr

/-- The branch chain of the background-phase effect on the three hours. -/
def phaseOfHours (hour sunrise sunset : Nat) : Phase :=
  if hour ≥ sunrise ∧ hour < sunrise + 1 then .sunrise
  else if hour ≥ sunrise + 1 ∧ hour < sunset then .day
  else if hour ≥ sunset ∧ hour < sunset + 1 then .sunset
  else .night

/-- The background-phase effect: the value of `bgPhase` after the effect has run
with the given `weather` and `time`; without a snapshot it returns early. -/
def bgPhaseEffect (weather : Option Snapshot) (time : JsDate) (bgPhase : Phase) : Phase :=
  match weather with
  | none => bgPhase
  | some w => phaseOfHours time.getHours w.sunrise.getHours w.sunset.getHours

/-! ## The component: state cells, effects and events -/

/-- An `Audio` element created by `new Audio(sound)`.  `id` is the element's
identity, its rank in creation order; `volume` is in hundredths. -/
structure Audio where
  id : Nat
  src : String
  volume : Nat
  paused : Bool
  deriving DecidableEq, Repr

/-- The method `HTMLMediaElement.pause()`. -/
def Audio.pause (a : Audio) : Audio := { a with paused := true }

/-- The mounted `Weather` component together with the browser resources its
effects own.

* `weather`, `soundEnabled`, `time`, `bgPhase` are the `useState` cells;
* `audioRef` is `audioRef.current`, the identity of the element it holds;
* `audios` are all `Audio` elements created so far;
* `timeouts` are the armed `setTimeout` handles, each named by the identity of
  the `Audio` element created by the same effect run;
* `soundCleanup` is the cleanup function returned by the last run of the
  ambient-sound effect, if it returned one, given by the `timer` it closes over;
* `clockInterval` tells whether the `setInterval` of the live-clock effect is armed. -/
structure Component where
  mounted : Bool
  weather : Option Snapshot
  soundEnabled : Bool
  time : JsDate
  bgPhase : Phase
  audioRef : Option Nat
  audios : List Audio
  timeouts : List Nat
  soundCleanup : Option Nat
  clockInterval : Bool
  deriving DecidableEq, Repr

/-- Pause the element with identity `i`. -/
def pauseAudio (i : Nat) (audios : List Audio) : List Audio :=
  audios.map fun a => if a.id = i then a.pause else a

/-- The statement `if (audioRef.current) audioRef.current.pause();`. -/
def pauseCurrent (w : Component) : Component :=
  match w.audioRef with
  | none => w
  | some i => { w with audios := pauseAudio i w.audios }

/-- The call `clearTimeout(t)`. -/
def clearTimeout (t : Nat) (w : Component) : Component :=
  { w with timeouts := w.timeouts.filter fun u => u ≠ t }

/-- The elements that are playing. -/
def playing (w : Component) : List Audio := w.audios.filter fun a => !a.paused

/-- The cleanup of the ambient-sound effect, when the last run returned one:
`clearTimeout(timer); if (audioRef.current) audioRef.current.pause();`. -/
def runSoundCleanup (w : Component) : Component :=
  match w.soundCleanup with
  | none => w
  | some t => pauseCurrent { clearTimeout t w with soundCleanup := none }

/-- One run of the ambient-sound effect body.  `playOk` tells whether `play()`
succeeds; a rejected `play()` is swallowed and leaves the new element paused. -/
def soundEffect (playOk : Bool) (w : Component) : Component :=
  match w.weather, w.soundEnabled with
  | some snap, true =>
    let key := getWeatherKey snap.condition
    let sound := weatherSounds key
    let w1 : Component :=
      match w.audioRef with
      | some _ => { pauseCurrent w with audioRef := none }
      | none => w
    let n := w1.audios.length
    { w1 with
      audios := w1.audios ++ [{ id := n, src := sound, volume := 40, paused := !playOk }]
      audioRef := some n
      timeouts := n :: w1.timeouts
      soundCleanup := some n }
  | _, false => pauseCurrent w
  | none, true => w

/-- The callback of the deadline timer: `if (audioRef.current) audioRef.current.pause();`. -/
def timerCallback (w : Component) : Component := pauseCurrent w

/-- What can happen to a mounted component. -/
inductive Event where
  /-- The update `setWeather(res.data)` with a freshly fetched payload. -/
  | snapshotArrived (snap : Snapshot) (playOk : Bool)
  /-- The update `setWeather(null)`. -/
  | snapshotCleared
  /-- A click on the sound toggle: `setSoundEnabled(!soundEnabled)`. -/
  | toggleSound (playOk : Bool)
  /-- The deadline timer with handle `t` fires. -/
  | timerFired (t : Nat)
  /-- The clock interval fires: `setTime(new Date())`. -/
  | tick (now : JsDate)
  /-- The view is unmounted. -/
  | unmount
  deriving DecidableEq, Repr

/-- The component right after mount: the live-clock effect has armed its
interval, the ambient-sound effect found no snapshot and returned no cleanup,
the background-phase effect returned early. -/
def mount (now : JsDate) : Component :=
  { mounted := true
    weather := none
    soundEnabled := true
    time := now
    bgPhase := .day
    audioRef := none
    audios := []
    timeouts := []
    soundCleanup := none
    clockInterval := true }

/-- One event.  A state update whose dependency changed re-runs the effects that
list it: the pending cleanup first, then the effect body.  A state update on an
unmounted component does nothing; a timer fires only while it is armed. -/
def step (e : Event) (w : Component) : Component :=
  match e with
  | .snapshotArrived snap playOk =>
    if w.mounted then
      let w1 := soundEffect playOk { runSoundCleanup w with weather := some snap }
      { w1 with bgPhase := bgPhaseEffect w1.weather w1.time w1.bgPhase }
    else w
  | .snapshotCleared =>
    if w.mounted ∧ w.weather.isSome then
      soundEffect false { runSoundCleanup w with weather := none }
    else w
  | .toggleSound playOk =>
    if w.mounted then
      soundEffect playOk { runSoundCleanup w with soundEnabled := !w.soundEnabled }
    else w
  | .timerFired t =>
    if t ∈ w.timeouts then timerCallback (clearTimeout t w) else w
  | .tick now =>
    if w.mounted ∧ w.clockInterval then
      { w with time := now, bgPhase := bgPhaseEffect w.weather now w.bgPhase }
    else w
  | .unmount =>
    if w.mounted then
      { runSoundCleanup w with mounted := false, clockInterval := false }
    else w

/-- The state after the events `es`, starting from `w`. -/
def runFrom (w : Component) (es : List Event) : Component :=
  es.foldl (fun u e => step e u) w

/-- The state reached from mount at time `now` by the events `es`. -/
def run (now : JsDate) (es : List Event) : Component := runFrom (mount now) es

/-! ## Fetch handlers -/

/-- The cells the fetch handlers write. -/
structure ViewState where
  city : String
  weather : Option Snapshot
  error : String
  deriving DecidableEq, Repr

/-- The URL of the lookup by coordinates; `lat` and `lon` are the printed numbers. -/
def coordsUrl (lat lon : String) : String :=
  "http://127.0.0.1:8000/weather?lat=" ++ lat ++ "&lon=" ++ lon

/-- The URL of the lookup by name. -/
def cityUrl (cityName : String) : String :=
  "http://127.0.0.1:8000/weather?city=" ++ cityName

/-- The handler `fetchWeatherByCity(cityName)`, run to completion; `get url` is
the outcome of `axios.get(url)`, `none` when it rejects. -/
def fetchWeatherByCity (get : String → Option Snapshot) (cityName : String)
    (v : ViewState) : ViewState :=
  match get (cityUrl cityName) with
  | some data => { v with weather := some data, city := data.city, error := "" }
  | none => { v with error := "Failed to fetch weather." }

/-- The handler `fetchWeatherByCoords(lat, lon)`, run to completion together with
the fallback lookup it starts. -/
def fetchWeatherByCoords (get : String → Option Snapshot) (lat lon : String)
    (v : ViewState) : ViewState :=
  match get (coordsUrl lat lon) with
  | some data => { v with weather := some data, city := data.city, error := "" }
  | none =>
    fetchWeatherByCity get "New York"
      { v with error := "Failed to fetch location. Showing default city." }

/-- The handler `fetchWeather()` of the search button, which looks up the `city` cell. -/
def fetchWeather (get : String → Option Snapshot) (v : ViewState) : ViewState :=
  match get (cityUrl v.city) with
  | some data => { v with weather := some data, error := "" }
  | none => { v with weather := none, error := "City not found or server error" }

/-- What `navigator.geolocation` answers on mount. -/
inductive Geolocation where
  | unavailable
  | denied
  | position (lat lon : String)
  deriving DecidableEq, Repr

/-- The fetch effect run on mount. -/
def initialFetch (get : String → Option Snapshot) (geo : Geolocation)
    (v : ViewState) : ViewState :=
  match geo with
  | .position lat lon => fetchWeatherByCoords get lat lon v
  | .unavailable => fetchWeatherByCity get "New York" v
  | .denied => fetchWeatherByCity get "New York" v

/-- The cells right after mount. -/
def initialView : ViewState := { city := "", weather := none, error := "" }

/-! ## The invariant of the ambient-sound effect -/

/-- What holds in every state reached from mount: element identities are
distinct and below the number of elements created; an element that plays and a
timer that is armed both belong to the effect run whose cleanup is pending; that
run's element is the one `audioRef` holds, and `audioRef` holds an element that
was created; a cleanup is pending only while mounted; an unmounted component has no clock interval. -/
structure Inv (w : Component) : Prop where
  ids : ∀ a ∈ w.audios, a.id < w.audios.length
  nodup : (w.audios.map Audio.id).Nodup
  playing_pending : ∀ a ∈ w.audios, a.paused = false → w.soundCleanup = some a.id
  timer_pending : ∀ t ∈ w.timeouts, w.soundCleanup = some t
  timers_le : w.timeouts.length ≤ 1
  pending_current : ∀ t, w.soundCleanup = some t → w.audioRef = some t ∧ w.mounted = true
  ref_lt : ∀ i, w.audioRef = some i → i < w.audios.length
  unmounted : w.mounted = false → w.clockInterval = false

/-! ## Sample data -/

/-- Nine in the morning. -/
def nineAm : JsDate := { hours := 9, minutes := 30, seconds := 0 }

/-- A rainy snapshot with sunrise at six and sunset at eighteen. -/
def rainyLondon : Snapshot :=
  { city := "London", country := "GB", condition := some "light rain",
    sunrise := { hours := 6, minutes := 12, seconds := 5 },
    sunset := { hours := 18, minutes := 40, seconds := 9 } }

/-- A clear snapshot of the default city. -/
def clearNewYork : Snapshot :=
  { city := "New York", country := "US", condition := some "clear sky",
    sunrise := { hours := 6, minutes := 0, seconds := 0 },
    sunset := { hours := 18, minutes := 0, seconds := 0 } }

/-- A server on which every lookup by coordinates fails and only the default
city is known. -/
def defaultCityOnly (url : String) : Option Snapshot :=
  if url = cityUrl "New York" then some clearNewYork else none

/-- A server on which every lookup fails. -/
def serverDown (_url : String) : Option Snapshot := none



/-! ## The classifier -/

theorem startsWithChars_iff (s p : List Char) : startsWithChars s p = true ↔ p <+: s := by
  induction s generalizing p with
  | nil => cases p <;> simp [startsWithChars]
  | cons c cs ih =>
    cases p with
    | nil => simp [startsWithChars]
    | cons q qs =>
      simp only [startsWithChars, Bool.and_eq_true, beq_iff_eq, ih, List.cons_prefix_cons]
      constructor
      · rintro ⟨rfl, h⟩
        exact ⟨rfl, h⟩
      · rintro ⟨rfl, h⟩
        exact ⟨rfl, h⟩

theorem includesChars_iff (s needle : List Char) :
    includesChars s needle = true ↔ needle <:+: s := by
  induction s with
  | nil => cases needle <;> simp [includesChars]
  | cons c cs ih =>
    simp only [includesChars, Bool.or_eq_true, startsWithChars_iff, ih, List.infix_cons_iff]

theorem includes_iff (s needle : String) :
    includes s needle = true ↔ needle.data <:+: s.data := by
  simp [includes, includesChars_iff]

theorem includes_lower_of_containsAnyCase (c word : String) (h : ContainsAnyCase c word) :
    includes (toLowerCase c) word = true := by
  obtain ⟨w, hw, hword⟩ := h
  rw [includes_iff, ← hword]
  obtain ⟨a, b, hab⟩ := hw
  refine ⟨a.map lowerChar, b.map lowerChar, ?_⟩
  simp [toLowerCase, ← hab]

/-- C1: on every condition string `getWeatherKey` is the ordered first-match rule
list (rain, thunder, snow, mist or fog, cloud, else clear) applied to the
lower-cased string; a string that contains "rain" in any letter case gives
`rain` whatever else it contains; the empty and the absent condition give `clear`. -/
theorem getWeatherKey_first_match (c : String) :
    getWeatherKey (some c) = firstMatch (toLowerCase c) ∧
    (ContainsAnyCase c "rain" → getWeatherKey (some c) = .rain) ∧
    getWeatherKey (some "") = .clear ∧ getWeatherKey none = .clear := by
  refine ⟨?_, ?_, by decide, rfl⟩
  · by_cases hc : c = ""
    · subst hc
      decide
    · have e : ∀ n : String, decide (n.data <:+: (toLowerCase c).data)
          = includes (toLowerCase c) n := by
        intro n
        rw [Bool.eq_iff_iff]
        simp [includes_iff]
      simp only [getWeatherKey, hc, if_false, firstMatch, classifierRules, List.find?,
        Rule.fires, List.any, e, Bool.or_false]
      cases includes (toLowerCase c) "rain" <;>
        cases includes (toLowerCase c) "thunder" <;>
        cases includes (toLowerCase c) "snow" <;>
        cases includes (toLowerCase c) "mist" <;>
        cases includes (toLowerCase c) "fog" <;>
        cases includes (toLowerCase c) "cloud" <;> simp
  · intro h
    have hi := includes_lower_of_containsAnyCase c "rain" h
    have hc : c ≠ "" := by
      rintro rfl
      simp [toLowerCase, includes, includesChars] at hi
    simp [getWeatherKey, hc, hi]

/-- C1, at the condition "Light RAIN and Thunder". -/
theorem getWeatherKey_first_match_witness :
    ContainsAnyCase "Light RAIN and Thunder" "rain" ∧
      getWeatherKey (some "Light RAIN and Thunder") = .rain :=
  have h : ContainsAnyCase "Light RAIN and Thunder" "rain" :=
    ⟨"RAIN".data, by decide, by decide⟩
  ⟨h, (getWeatherKey_first_match "Light RAIN and Thunder").2.1 h⟩

/-- C3, refuted: "light rain and thunder" is not classified as thunderstorm. -/
theorem getWeatherKey_rain_and_thunder_ne :
    getWeatherKey (some "light rain and thunder") ≠ .thunderstorm := by decide

/-- C3, amended: "light rain and thunder", which contains both "rain" and
"thunder", is classified as rain, the rule for "rain" being tried first. -/
theorem getWeatherKey_rain_and_thunder :
    includes (toLowerCase "light rain and thunder") "rain" = true ∧
    includes (toLowerCase "light rain and thunder") "thunder" = true ∧
    getWeatherKey (some "light rain and thunder") = .rain := by decide

/-! ## The background phase -/

/-- C2: with a snapshot whose sunrise hour is before its sunset hour, the phase
set by the background-phase effect is sunrise exactly when the hour equals the
sunrise hour, day exactly when it lies strictly between the two, sunset exactly
when it equals the sunset hour, night in every other case; the four examples of
the specification hold, and the phase is a function of the three hours alone. -/
theorem bgPhaseEffect_by_hours (snap : Snapshot) (time : JsDate) (prev : Phase)
    (hst : snap.sunrise.hours < snap.sunset.hours) :
    (bgPhaseEffect (some snap) time prev = .sunrise ↔ time.hours = snap.sunrise.hours) ∧
    (bgPhaseEffect (some snap) time prev = .day ↔
      snap.sunrise.hours < time.hours ∧ time.hours < snap.sunset.hours) ∧
    (bgPhaseEffect (some snap) time prev = .sunset ↔ time.hours = snap.sunset.hours) ∧
    (bgPhaseEffect (some snap) time prev = .night ↔
      ¬ time.hours = snap.sunrise.hours ∧
      ¬ (snap.sunrise.hours < time.hours ∧ time.hours < snap.sunset.hours) ∧
      ¬ time.hours = snap.sunset.hours) ∧
    phaseOfHours 9 6 18 = .day ∧ phaseOfHours 6 6 18 = .sunrise ∧
    phaseOfHours 18 6 18 = .sunset ∧ phaseOfHours 2 6 18 = .night ∧
    (∀ (snap2 : Snapshot) (time2 : JsDate) (prev2 : Phase),
      time2.hours = time.hours → snap2.sunrise.hours = snap.sunrise.hours →
      snap2.sunset.hours = snap.sunset.hours →
      bgPhaseEffect (some snap2) time2 prev2 = bgPhaseEffect (some snap) time prev) := by
  refine ⟨?_, ?_, ?_, ?_, by decide, by decide, by decide, by decide, ?_⟩
  all_goals simp only [bgPhaseEffect, phaseOfHours, JsDate.getHours]
  · split_ifs <;> simp <;> omega
  · split_ifs <;> simp <;> omega
  · split_ifs <;> simp <;> omega
  · split_ifs <;> simp <;> omega
  · intro snap2 time2 prev2 h1 h2 h3
    simp only [h1, h2, h3]

/-- C2, at nine in the morning with sunrise at six and sunset at eighteen. -/
theorem bgPhaseEffect_by_hours_witness :
    rainyLondon.sunrise.hours < rainyLondon.sunset.hours ∧
      bgPhaseEffect (some rainyLondon) nineAm .night = .day :=
  ⟨by decide,
    (bgPhaseEffect_by_hours rainyLondon nineAm .night (by decide)).2.1.mpr (by decide)⟩

/-! ## The ambient-sound effect: building blocks -/

theorem length_pauseAudio (i : Nat) (l : List Audio) : (pauseAudio i l).length = l.length := by
  simp [pauseAudio]

theorem map_id_pauseAudio (i : Nat) (l : List Audio) :
    (pauseAudio i l).map Audio.id = l.map Audio.id := by
  simp only [pauseAudio, List.map_map]
  apply List.map_congr_left
  intro a _
  by_cases h : a.id = i <;> simp [h, Audio.pause]

theorem mem_pauseAudio {i : Nat} {l : List Audio} {a : Audio} (h : a ∈ pauseAudio i l)
    (hp : a.paused = false) : a ∈ l ∧ a.id ≠ i := by
  simp only [pauseAudio, List.mem_map] at h
  obtain ⟨b, hb, rfl⟩ := h
  by_cases hi : b.id = i
  · simp [hi, Audio.pause] at hp
  · simp only [hi, if_false] at hp ⊢
    exact ⟨hb, hi⟩

theorem mem_pauseAudio_id {i : Nat} {l : List Audio} {a : Audio} (h : a ∈ pauseAudio i l) :
    ∃ b ∈ l, b.id = a.id := by
  have : a.id ∈ (pauseAudio i l).map Audio.id := List.mem_map_of_mem _ h
  rw [map_id_pauseAudio] at this
  simpa using this

theorem pauseAudio_paused {i : Nat} {l : List Audio} (h : ∀ a ∈ l, a.paused = false → a.id = i) :
    ∀ a ∈ pauseAudio i l, a.paused = true := by
  intro a ha
  by_contra hp
  have hp2 : a.paused = false := by simpa using hp
  obtain ⟨hl, hi⟩ := mem_pauseAudio ha hp2
  exact hi (h a hl hp2)

theorem Inv.mount (now : JsDate) : Inv (mount now) := by
  constructor <;> simp [Weather.mount]

theorem Inv.pauseCurrent {w : Component} (h : Inv w) : Inv (pauseCurrent w) := by
  unfold Weather.pauseCurrent
  cases hr : w.audioRef with
  | none => exact h
  | some i =>
    refine ⟨?_, ?_, ?_, h.timer_pending, h.timers_le, ?_, ?_, h.unmounted⟩
    · intro a ha
      obtain ⟨b, hb, hid⟩ := mem_pauseAudio_id ha
      simpa [length_pauseAudio, ← hid] using h.ids b hb
    · simpa [map_id_pauseAudio] using h.nodup
    · intro a ha hp
      exact h.playing_pending a (mem_pauseAudio ha hp).1 hp
    · intro t ht
      have := h.pending_current t ht
      exact ⟨by simpa [hr] using this.1, this.2⟩
    · intro j hj
      simpa [length_pauseAudio] using h.ref_lt j (by simpa [hr] using hj)

/-- Nothing plays and no timer is armed while no cleanup is pending. -/
theorem Inv.quiet {w : Component} (h : Inv w) (hc : w.soundCleanup = none) :
    w.timeouts = [] ∧ ∀ a ∈ w.audios, a.paused = true := by
  constructor
  · apply List.eq_nil_iff_forall_not_mem.mpr
    intro t ht
    simpa [hc] using h.timer_pending t ht
  · intro a ha
    by_contra hp
    simpa [hc] using h.playing_pending a ha (by simpa using hp)

theorem runSoundCleanup_fields (w : Component) :
    (runSoundCleanup w).soundCleanup = none ∧
    (runSoundCleanup w).mounted = w.mounted ∧
    (runSoundCleanup w).clockInterval = w.clockInterval ∧
    (runSoundCleanup w).weather = w.weather ∧
    (runSoundCleanup w).soundEnabled = w.soundEnabled ∧
    (runSoundCleanup w).audioRef = w.audioRef ∧
    (runSoundCleanup w).audios.length = w.audios.length := by
  unfold runSoundCleanup
  cases hc : w.soundCleanup with
  | none => simp [hc]
  | some t =>
    cases hr : w.audioRef <;>
      simp [Weather.pauseCurrent, clearTimeout, hr, length_pauseAudio]

theorem runSoundCleanup_pending {w : Component} (h : Inv w) {t : Nat}
    (hc : w.soundCleanup = some t) :
    runSoundCleanup w =
      { w with timeouts := [], soundCleanup := none, audios := pauseAudio t w.audios } := by
  have hcur := (h.pending_current t hc).1
  have ht : ∀ u ∈ w.timeouts, u = t := by
    intro u hu
    have := h.timer_pending u hu
    rw [hc] at this
    exact (Option.some.inj this).symm
  simpa [runSoundCleanup, hc, Weather.pauseCurrent, clearTimeout, hcur] using ht

theorem Inv.runSoundCleanup {w : Component} (h : Inv w) : Inv (runSoundCleanup w) := by
  cases hc : w.soundCleanup with
  | none =>
    have : Weather.runSoundCleanup w = w := by simp [Weather.runSoundCleanup, hc]
    rw [this]
    exact h
  | some t =>
    rw [runSoundCleanup_pending h hc]
    have hall : ∀ a ∈ pauseAudio t w.audios, a.paused = true :=
      pauseAudio_paused fun a ha hp => by
        have := h.playing_pending a ha hp
        rw [hc] at this
        exact (Option.some.inj this).symm
    refine ⟨?_, ?_, ?_, ?_, ?_, ?_, ?_, h.unmounted⟩
    · intro a ha
      obtain ⟨b, hb, hid⟩ := mem_pauseAudio_id ha
      simpa [length_pauseAudio, ← hid] using h.ids b hb
    · simpa [map_id_pauseAudio] using h.nodup
    · intro a ha hp
      have := hall a ha
      simp [hp] at this
    · simp
    · simp
    · simp
    · intro j hj
      simpa [length_pauseAudio] using h.ref_lt j hj

/-- One run of the effect body from a state without pending cleanup. -/
theorem Inv.soundEffect {w : Component} (h : Inv w) (hc : w.soundCleanup = none)
    (hm : w.mounted = true) (playOk : Bool) : Inv (soundEffect playOk w) := by
  obtain ⟨ht, hall⟩ := h.quiet hc
  unfold Weather.soundEffect
  split
  · rename_i snap hw hs
    have key : ∀ l : List Audio, l.length = w.audios.length →
        l.map Audio.id = w.audios.map Audio.id → (∀ a ∈ l, a.paused = true) →
        ∀ (src : String) (r : Option Nat),
        Inv { w with
          audioRef := some l.length
          audios := l ++ [{ id := l.length, src := src, volume := 40, paused := !playOk }]
          timeouts := [l.length]
          soundCleanup := some l.length } := by
      intro l hlen hmap hpa src r
      have hlt : ∀ a ∈ l, a.id < l.length := by
        intro a ha
        have : a.id ∈ w.audios.map Audio.id := hmap ▸ List.mem_map_of_mem _ ha
        obtain ⟨b, hb, hid⟩ := List.mem_map.mp this
        rw [← hid, hlen]
        exact h.ids b hb
      refine ⟨?_, ?_, ?_, ?_, ?_, ?_, ?_, ?_⟩
      · intro a ha
        simp only [List.mem_append, List.mem_singleton] at ha
        simp only [List.length_append, List.length_singleton]
        rcases ha with ha | rfl
        · exact Nat.lt_succ_of_lt (hlt a ha)
        · exact Nat.lt_succ_self _
      · simp only [List.map_append, List.map_cons, List.map_nil]
        rw [List.nodup_append]
        refine ⟨hmap ▸ h.nodup, List.nodup_singleton _, ?_⟩
        intro x hx hx2
        simp only [List.mem_singleton] at hx2
        obtain ⟨b, hb, hid⟩ := List.mem_map.mp hx
        have := hlt b hb
        omega
      · intro a ha hp
        simp only [List.mem_append, List.mem_singleton] at ha
        rcases ha with ha | rfl
        · have := hpa a ha
          simp [hp] at this
        · rfl
      · simp
      · simp
      · intro t ht2
        simp only [Option.some.injEq] at ht2
        exact ⟨by rw [ht2], hm⟩
      · intro j hj
        simp only [Option.some.injEq] at hj
        simp [← hj]
      · intro hm2
        simp [hm] at hm2
    cases hr : w.audioRef with
    | none =>
      have := key w.audios rfl rfl hall (weatherSounds (getWeatherKey snap.condition)) none
      simpa [hr, ht] using this
    | some i =>
      have := key (pauseAudio i w.audios) (length_pauseAudio _ _) (map_id_pauseAudio _ _)
        (pauseAudio_paused fun a ha hp => by
          have := hall a ha
          simp [hp] at this)
        (weatherSounds (getWeatherKey snap.condition)) none
      simpa [hr, ht, Weather.pauseCurrent] using this
  · exact h.pauseCurrent
  · exact h

/-- The invariant reads only the cells of the ambient-sound effect, `mounted`
and `clockInterval`. -/
theorem Inv.congr {w u : Component} (h : Inv w) (ha : u.audios = w.audios)
    (ht : u.timeouts = w.timeouts) (hc : u.soundCleanup = w.soundCleanup)
    (hr : u.audioRef = w.audioRef) (hm : u.mounted = w.mounted)
    (hk : u.clockInterval = w.clockInterval) : Inv u := by
  refine ⟨?_, ?_, ?_, ?_, ?_, ?_, ?_, ?_⟩
  · rw [ha]; exact h.ids
  · rw [ha]; exact h.nodup
  · rw [ha, hc]; exact h.playing_pending
  · rw [ht, hc]; exact h.timer_pending
  · rw [ht]; exact h.timers_le
  · rw [hc, hr, hm]; exact h.pending_current
  · rw [hr, ha]; exact h.ref_lt
  · rw [hm, hk]; exact h.unmounted

theorem Inv.step {w : Component} (h : Inv w) (e : Event) : Inv (step e w) := by
  have hf := runSoundCleanup_fields w
  have hq := h.runSoundCleanup
  cases e with
  | snapshotArrived snap playOk =>
    simp only [Weather.step]
    split
    · rename_i hm
      have h1 : Inv { Weather.runSoundCleanup w with weather := some snap } :=
        hq.congr rfl rfl rfl rfl rfl rfl
      have h2 := h1.soundEffect hf.1 (hf.2.1.trans hm) playOk
      exact h2.congr rfl rfl rfl rfl rfl rfl
    · exact h
  | snapshotCleared =>
    simp only [Weather.step]
    split
    · rename_i hm
      have h1 : Inv { Weather.runSoundCleanup w with weather := none } :=
        hq.congr rfl rfl rfl rfl rfl rfl
      exact h1.soundEffect hf.1 (hf.2.1.trans hm.1) false
    · exact h
  | toggleSound playOk =>
    simp only [Weather.step]
    split
    · rename_i hm
      have h1 : Inv { Weather.runSoundCleanup w with soundEnabled := !w.soundEnabled } :=
        hq.congr rfl rfl rfl rfl rfl rfl
      exact h1.soundEffect hf.1 (hf.2.1.trans hm) playOk
    · exact h
  | timerFired t =>
    simp only [Weather.step]
    split
    · apply Inv.pauseCurrent
      refine ⟨h.ids, h.nodup, h.playing_pending, ?_, ?_, h.pending_current, h.ref_lt,
        h.unmounted⟩
      · intro u hu
        exact h.timer_pending u (List.mem_filter.mp hu).1
      · exact le_trans (List.length_filter_le _ _) h.timers_le
    · exact h
  | tick now =>
    simp only [Weather.step]
    split
    · exact h.congr rfl rfl rfl rfl rfl rfl
    · exact h
  | unmount =>
    simp only [Weather.step]
    split
    · refine ⟨hq.ids, hq.nodup, ?_, ?_, hq.timers_le, ?_, hq.ref_lt, ?_⟩
      · intro a ha hp
        have := (hq.quiet hf.1).2 a ha
        simp [hp] at this
      · intro t ht
        have := (hq.quiet hf.1).1
        simp only at ht
        rw [this] at ht
        simp at ht
      · intro t ht
        simp only at ht
        rw [hf.1] at ht
        simp at ht
      · intro _
        rfl
    · exact h

theorem Inv.runFrom {w : Component} (h : Inv w) (es : List Event) : Inv (runFrom w es) := by
  induction es generalizing w with
  | nil => exact h
  | cons e es ih => exact ih (h.step e)

/-- Every state reached from mount satisfies the invariant. -/
theorem Inv.run (now : JsDate) (es : List Event) : Inv (run now es) :=
  (Inv.mount now).runFrom es

/-- Among elements with distinct identities, at most one has a given identity. -/
theorem length_filter_le_one (l : List Audio) (p : Audio → Bool) (c : Nat)
    (hnd : (l.map Audio.id).Nodup) (hp : ∀ a ∈ l, p a = true → a.id = c) :
    (l.filter p).length ≤ 1 := by
  induction l with
  | nil => simp
  | cons x xs ih =>
    simp only [List.map_cons, List.nodup_cons] at hnd
    have ih2 := ih hnd.2 fun a ha => hp a (List.mem_cons_of_mem _ ha)
    by_cases hx : p x = true
    · have hnil : xs.filter p = [] := by
        apply List.eq_nil_iff_forall_not_mem.mpr
        intro a ha
        obtain ⟨hmem, hpa⟩ := List.mem_filter.mp ha
        apply hnd.1
        have e1 := hp a (List.mem_cons_of_mem _ hmem) hpa
        have e2 := hp x (List.mem_cons_self _ _) hx
        rw [e2, ← e1]
        exact List.mem_map_of_mem _ hmem
      simp [List.filter_cons, hx, hnil]
    · simpa [List.filter_cons, hx] using ih2

theorem Inv.playing_le_one {w : Component} (h : Inv w) : (playing w).length ≤ 1 := by
  unfold playing
  cases hc : w.soundCleanup with
  | none =>
    have : (w.audios.filter fun a => !a.paused) = [] := by
      apply List.eq_nil_iff_forall_not_mem.mpr
      intro a ha
      obtain ⟨hmem, hpa⟩ := List.mem_filter.mp ha
      have := (h.quiet hc).2 a hmem
      simp [this] at hpa
    simp [this]
  | some t =>
    apply length_filter_le_one _ _ t h.nodup
    intro a ha hp
    have := h.playing_pending a ha (by simpa using hp)
    rw [hc] at this
    exact (Option.some.inj this).symm

theorem length_pauseCurrent (w : Component) :
    (pauseCurrent w).audios.length = w.audios.length := by
  unfold pauseCurrent
  cases w.audioRef <;> simp [length_pauseAudio]

/-- A run of the effect body either creates no element or leaves the new
element, whose identity is the former number of elements, in `audioRef`. -/
theorem soundEffect_length (playOk : Bool) (w : Component) :
    (soundEffect playOk w).audios.length = w.audios.length ∨
    (soundEffect playOk w).audioRef = some w.audios.length := by
  unfold soundEffect
  split
  · right
    cases hr : w.audioRef <;> simp [pauseCurrent, hr, length_pauseAudio]
  · left
    exact length_pauseCurrent w
  · left
    rfl

/-- With a pending cleanup run first, a run of the effect body either creates
no element or leaves the new element in `audioRef`. -/
theorem rerun_length (playOk : Bool) (w u : Component)
    (hu : u.audios.length = w.audios.length) :
    (soundEffect playOk u).audios.length = w.audios.length ∨
    (soundEffect playOk u).audioRef = some w.audios.length := by
  rw [← hu]
  exact soundEffect_length playOk u

theorem step_length (e : Event) (w : Component) :
    (step e w).audios.length = w.audios.length ∨
    (step e w).audioRef = some w.audios.length := by
  have hf := runSoundCleanup_fields w
  cases e with
  | snapshotArrived snap playOk =>
    by_cases hm : w.mounted = true
    · have := rerun_length playOk w { runSoundCleanup w with weather := some snap }
        hf.2.2.2.2.2.2
      simpa [step, hm] using this
    · left
      simp [step, hm]
  | snapshotCleared =>
    by_cases hm : w.mounted = true ∧ w.weather.isSome = true
    · have := rerun_length false w { runSoundCleanup w with weather := none }
        hf.2.2.2.2.2.2
      simpa [step, hm] using this
    · left
      simp only [step, hm, if_false]
  | toggleSound playOk =>
    by_cases hm : w.mounted = true
    · have := rerun_length playOk w
        { runSoundCleanup w with soundEnabled := !w.soundEnabled } hf.2.2.2.2.2.2
      simpa [step, hm] using this
    · left
      simp [step, hm]
  | timerFired t =>
    left
    by_cases ht : t ∈ w.timeouts
    · simp [step, ht, timerCallback, length_pauseCurrent, clearTimeout]
    · simp [step, ht]
  | tick now =>
    left
    by_cases hm : w.mounted = true ∧ w.clockInterval = true
    · simp only [step, hm, and_self, if_true]
    · simp only [step, hm, if_false]
  | unmount =>
    left
    by_cases hm : w.mounted = true
    · simpa [step, hm] using hf.2.2.2.2.2.2
    · simp [step, hm]

theorem step_grow (e : Event) (w : Component)
    (hlt : w.audios.length < (step e w).audios.length) :
    (step e w).audioRef = some w.audios.length := by
  rcases step_length e w with h | h
  · omega
  · exact h

/-- An unpaused element is the one `audioRef` holds. -/
theorem Inv.playing_current {w : Component} (h : Inv w) {a : Audio} (ha : a ∈ w.audios)
    (hp : a.paused = false) : w.audioRef = some a.id :=
  (h.pending_current a.id (h.playing_pending a ha hp)).1

theorem Inv.pending_of_playing {w : Component} (h : Inv w) (hp : playing w ≠ []) :
    ∃ t, w.soundCleanup = some t := by
  cases hc : w.soundCleanup with
  | some t => exact ⟨t, rfl⟩
  | none =>
    exfalso
    apply hp
    apply List.eq_nil_iff_forall_not_mem.mpr
    intro a ha
    obtain ⟨hmem, hpa⟩ := List.mem_filter.mp ha
    have := (h.quiet hc).2 a hmem
    simp [this] at hpa

/-- While a cleanup is pending, pausing the element of its run pauses every element. -/
theorem Inv.pauseAudio_pending {w : Component} (h : Inv w) {t : Nat}
    (hc : w.soundCleanup = some t) : pauseAudio t w.audios = w.audios.map Audio.pause := by
  apply List.map_congr_left
  intro a ha
  by_cases hi : a.id = t
  · simp [hi]
  · simp only [hi, if_false]
    cases hp : a.paused with
    | true =>
      cases a
      simp only [Audio.pause]
      simp only at hp
      rw [hp]
    | false =>
      have := h.playing_pending a ha hp
      rw [hc] at this
      exact absurd (Option.some.inj this).symm hi

theorem pauseAudio_map_pause (i : Nat) (l : List Audio) :
    pauseAudio i (l.map Audio.pause) = l.map Audio.pause := by
  simp only [pauseAudio, List.map_map]
  apply List.map_congr_left
  intro a _
  by_cases hi : a.id = i <;> simp [Audio.pause, hi]

theorem playing_map_pause (w : Component) (l : List Audio)
    (h : w.audios = l.map Audio.pause) : playing w = [] := by
  simp [playing, h, Audio.pause, List.filter_eq_nil_iff]

theorem pauseCurrent_fields (w : Component) :
    (pauseCurrent w).mounted = w.mounted ∧
    (pauseCurrent w).clockInterval = w.clockInterval ∧
    (pauseCurrent w).timeouts = w.timeouts ∧
    (pauseCurrent w).soundCleanup = w.soundCleanup ∧
    (pauseCurrent w).audioRef = w.audioRef := by
  unfold pauseCurrent
  cases hr : w.audioRef <;> simp [hr]

/-- An unmounted component stays unmounted and creates no element. -/
theorem step_unmounted (e : Event) {w : Component} (hm : w.mounted = false) :
    (step e w).mounted = false ∧ (step e w).audios.length = w.audios.length := by
  cases e with
  | timerFired t =>
    by_cases ht : t ∈ w.timeouts
    · simp [step, ht, timerCallback, length_pauseCurrent, clearTimeout,
        (pauseCurrent_fields _).1, hm]
    · simp [step, ht, hm]
  | _ => simp [step, hm]

theorem runFrom_unmounted (es : List Event) {w : Component} (hm : w.mounted = false) :
    (runFrom w es).mounted = false ∧ (runFrom w es).audios.length = w.audios.length := by
  induction es generalizing w with
  | nil => exact ⟨hm, rfl⟩
  | cons e es ih =>
    have h1 := step_unmounted e hm
    have h2 := ih h1.1
    exact ⟨h2.1, h2.2.trans h1.2⟩

theorem step_unmount (w : Component) :
    (step .unmount w).mounted = false ∧
    (step .unmount w).audios.length = w.audios.length := by
  have hf := runSoundCleanup_fields w
  by_cases hm : w.mounted = true
  · simpa [step, hm] using hf.2.2.2.2.2.2
  · have hm2 : w.mounted = false := by simpa using hm
    simp [step, hm2]

/-! ## The ambient-sound effect: properties of reachable states -/

/-- C4: in every state reached from mount by any sequence of events at most one
element created by the ambient-sound effect is playing, and whenever an event
makes the effect create a new element, every element created before is paused. -/
theorem at_most_one_playing (now : JsDate) (es : List Event) (e : Event) :
    (playing (run now es)).length ≤ 1 ∧
    ((run now es).audios.length < (step e (run now es)).audios.length →
      ∀ a ∈ (step e (run now es)).audios,
        a.id < (run now es).audios.length → a.paused = true) := by
  have h := Inv.run now es
  refine ⟨h.playing_le_one, ?_⟩
  intro hlt a ha hid
  by_contra hp
  have h2 := (h.step e).playing_current ha (by simpa using hp)
  rw [step_grow e _ hlt] at h2
  have := Option.some.inj h2
  omega

/-- C4, at two rainy snapshots in a row. -/
theorem at_most_one_playing_witness :
    (playing (run nineAm [.snapshotArrived rainyLondon true])).length ≤ 1 ∧
    ∀ a ∈ (step (.snapshotArrived rainyLondon true)
        (run nineAm [.snapshotArrived rainyLondon true])).audios,
      a.id < (run nineAm [.snapshotArrived rainyLondon true]).audios.length →
        a.paused = true :=
  ⟨(at_most_one_playing nineAm [.snapshotArrived rainyLondon true]
      (.snapshotArrived rainyLondon true)).1,
    (at_most_one_playing nineAm [.snapshotArrived rainyLondon true]
      (.snapshotArrived rainyLondon true)).2 (by decide)⟩

/-- C5, refuted: with sound enabled and a rain session active, a second rainy
snapshot is not a no-op: a second element is created and the timer is re-armed. -/
theorem same_category_not_noop :
    (run nineAm [.snapshotArrived rainyLondon true]).soundEnabled = true ∧
    (playing (run nineAm [.snapshotArrived rainyLondon true])).map Audio.src
      = [weatherSounds .rain] ∧
    getWeatherKey rainyLondon.condition = .rain ∧
    (run nineAm [.snapshotArrived rainyLondon true]).audios.length = 1 ∧
    (run nineAm [.snapshotArrived rainyLondon true]).timeouts = [0] ∧
    (step (.snapshotArrived rainyLondon true)
      (run nineAm [.snapshotArrived rainyLondon true])).audios.length = 2 ∧
    (step (.snapshotArrived rainyLondon true)
      (run nineAm [.snapshotArrived rainyLondon true])).timeouts = [1] ∧
    step (.snapshotArrived rainyLondon true)
      (run nineAm [.snapshotArrived rainyLondon true]) ≠
      run nineAm [.snapshotArrived rainyLondon true] := by decide

/-- C5, amended: in a state with sound enabled and a session playing, a fresh
snapshot, also one of the same category, makes the effect pause every element
created so far, create and start a new element for the snapshot's category,
hold it in `audioRef`, and leave one armed timer, a new one. -/
theorem same_category_restarts (now : JsDate) (es : List Event) (snap : Snapshot)
    (playOk : Bool) (hs : (run now es).soundEnabled = true)
    (hp : playing (run now es) ≠ []) :
    (step (.snapshotArrived snap playOk) (run now es)).audios =
      (run now es).audios.map Audio.pause ++
        [{ id := (run now es).audios.length
           src := weatherSounds (getWeatherKey snap.condition)
           volume := 40
           paused := !playOk }] ∧
    (step (.snapshotArrived snap playOk) (run now es)).audioRef =
      some (run now es).audios.length ∧
    (step (.snapshotArrived snap playOk) (run now es)).timeouts =
      [(run now es).audios.length] ∧
    (run now es).audios.length ∉ (run now es).timeouts := by
  have h := Inv.run now es
  obtain ⟨t, hc⟩ := h.pending_of_playing hp
  obtain ⟨hcur, hm⟩ := h.pending_current t hc
  refine ⟨?_, ?_, ?_, ?_⟩
  · simp [step, hm, runSoundCleanup_pending h hc, soundEffect, hs, hcur, pauseCurrent,
      h.pauseAudio_pending hc, pauseAudio_map_pause]
  · simp [step, hm, runSoundCleanup_pending h hc, soundEffect, hs, hcur, pauseCurrent,
      length_pauseAudio]
  · simp [step, hm, runSoundCleanup_pending h hc, soundEffect, hs, hcur, pauseCurrent,
      length_pauseAudio]
  · intro hmem
    have h1 := h.timer_pending _ hmem
    have h2 := h.ref_lt _ (h.pending_current _ h1).1
    omega

/-- C5, at two rainy snapshots in a row. -/
theorem same_category_restarts_witness :
    (run nineAm [.snapshotArrived rainyLondon true]).soundEnabled = true ∧
    playing (run nineAm [.snapshotArrived rainyLondon true]) ≠ [] ∧
    (step (.snapshotArrived rainyLondon true)
      (run nineAm [.snapshotArrived rainyLondon true])).timeouts =
      [(run nineAm [.snapshotArrived rainyLondon true]).audios.length] :=
  ⟨by decide, by decide,
    (same_category_restarts nineAm [.snapshotArrived rainyLondon true] rainyLondon true
      (by decide) (by decide)).2.2.1⟩

/-- C6: in every state reached from mount at most one deadline timer is armed;
an armed timer is the one of the effect run whose cleanup is pending and whose
element `audioRef` holds; an event that makes the effect create a new element
leaves no timer armed that was armed before; a timer that fires pauses the
element of its own run and no other. -/
theorem one_deadline_timer (now : JsDate) (es : List Event) :
    (run now es).timeouts.length ≤ 1 ∧
    (∀ t ∈ (run now es).timeouts,
      (run now es).soundCleanup = some t ∧ (run now es).audioRef = some t) ∧
    (∀ e, ∀ t ∈ (run now es).timeouts,
      (run now es).audios.length < (step e (run now es)).audios.length →
        t ∉ (step e (run now es)).timeouts) ∧
    (∀ t ∈ (run now es).timeouts,
      (step (.timerFired t) (run now es)).audios = pauseAudio t (run now es).audios ∧
      (step (.timerFired t) (run now es)).timeouts = []) := by
  have h := Inv.run now es
  refine ⟨h.timers_le, ?_, ?_, ?_⟩
  · intro t ht
    exact ⟨h.timer_pending t ht, (h.pending_current t (h.timer_pending t ht)).1⟩
  · intro e t ht hlt hmem
    have h1 := (h.step e).timer_pending t hmem
    have h2 := ((h.step e).pending_current t h1).1
    rw [step_grow e _ hlt] at h2
    have h3 := h.ref_lt t (h.pending_current t (h.timer_pending t ht)).1
    have := Option.some.inj h2
    omega
  · intro t ht
    have hcur := (h.pending_current t (h.timer_pending t ht)).1
    have hall : ∀ u ∈ (run now es).timeouts, u = t := by
      intro u hu
      have h1 := h.timer_pending u hu
      rw [h.timer_pending t ht] at h1
      exact (Option.some.inj h1).symm
    constructor
    · simp [step, ht, timerCallback, clearTimeout, pauseCurrent, hcur]
    · simpa [step, ht, timerCallback, clearTimeout, pauseCurrent, hcur] using hall

/-- C6, at two rainy snapshots in a row: the timer of the second run is the only
one armed, and when it fires it pauses the second element. -/
theorem one_deadline_timer_witness :
    (1 : Nat) ∈ (run nineAm [.snapshotArrived rainyLondon true,
      .snapshotArrived rainyLondon true]).timeouts ∧
    (step (.timerFired 1) (run nineAm [.snapshotArrived rainyLondon true,
      .snapshotArrived rainyLondon true])).timeouts = [] :=
  ⟨by decide,
    ((one_deadline_timer nineAm [.snapshotArrived rainyLondon true,
      .snapshotArrived rainyLondon true]).2.2.2 1 (by decide)).2⟩

/-- C7: in a reachable state with sound enabled and a session playing, the sound
toggle turns sound off, leaves every element paused and no timer armed, and
creates no element. -/
theorem sound_off_stops (now : JsDate) (es : List Event) (playOk : Bool)
    (hs : (run now es).soundEnabled = true) (hp : playing (run now es) ≠ []) :
    (step (.toggleSound playOk) (run now es)).soundEnabled = false ∧
    playing (step (.toggleSound playOk) (run now es)) = [] ∧
    (step (.toggleSound playOk) (run now es)).timeouts = [] ∧
    (step (.toggleSound playOk) (run now es)).audios =
      (run now es).audios.map Audio.pause := by
  have h := Inv.run now es
  obtain ⟨t, hc⟩ := h.pending_of_playing hp
  obtain ⟨hcur, hm⟩ := h.pending_current t hc
  have haud : (step (.toggleSound playOk) (run now es)).audios =
      (run now es).audios.map Audio.pause := by
    simp [step, hm, runSoundCleanup_pending h hc, soundEffect, hs, hcur, pauseCurrent,
      h.pauseAudio_pending hc, pauseAudio_map_pause]
  refine ⟨?_, playing_map_pause _ _ haud, ?_, haud⟩
  · simp [step, hm, runSoundCleanup_pending h hc, soundEffect, hs, hcur, pauseCurrent]
  · simp [step, hm, runSoundCleanup_pending h hc, soundEffect, hs, hcur, pauseCurrent]

/-- C7, at a rain session that is playing. -/
theorem sound_off_stops_witness :
    (run nineAm [.snapshotArrived rainyLondon true]).soundEnabled = true ∧
    playing (run nineAm [.snapshotArrived rainyLondon true]) ≠ [] ∧
    playing (step (.toggleSound true) (run nineAm [.snapshotArrived rainyLondon true])) = [] :=
  ⟨by decide, by decide,
    (sound_off_stops nineAm [.snapshotArrived rainyLondon true] true
      (by decide) (by decide)).2.1⟩

/-- C8: after unmount in any reachable state, and after any further events, the
component is unmounted, the clock interval is cancelled, no deadline timer is
armed, no element is playing, and no element has been created since. -/
theorem unmount_tears_down (now : JsDate) (es fs : List Event) :
    (runFrom (step .unmount (run now es)) fs).mounted = false ∧
    (runFrom (step .unmount (run now es)) fs).clockInterval = false ∧
    (runFrom (step .unmount (run now es)) fs).timeouts = [] ∧
    playing (runFrom (step .unmount (run now es)) fs) = [] ∧
    (runFrom (step .unmount (run now es)) fs).audios.length =
      (run now es).audios.length := by
  have h0 := Inv.run now es
  have h := (h0.step .unmount).runFrom fs
  have hu := step_unmount (run now es)
  have hr := runFrom_unmounted fs hu.1
  have hc : (runFrom (step .unmount (run now es)) fs).soundCleanup = none := by
    cases hc : (runFrom (step .unmount (run now es)) fs).soundCleanup with
    | none => rfl
    | some t =>
      have := (h.pending_current t hc).2
      rw [hr.1] at this
      cases this
  refine ⟨hr.1, h.unmounted hr.1, (h.quiet hc).1, ?_, hr.2.trans hu.2⟩
  apply List.eq_nil_iff_forall_not_mem.mpr
  intro a ha
  obtain ⟨hmem, hpa⟩ := List.mem_filter.mp ha
  have := (h.quiet hc).2 a hmem
  simp [this] at hpa

/-! ## The fetch handlers -/

/-- C9, on the code: when the lookup by coordinates fails and the fallback lookup
of "New York" succeeds, `fetchWeatherByCoords` sets the advisory message and
hands over to `fetchWeatherByCity`, and the handlers end with the default city's
snapshot and an empty error message: the advisory message is erased. -/
theorem fallback_success_clears_advisory (get : String → Option Snapshot)
    (lat lon : String) (v : ViewState) (data : Snapshot)
    (hcoords : get (coordsUrl lat lon) = none)
    (hcity : get (cityUrl "New York") = some data) :
    fetchWeatherByCoords get lat lon v =
      fetchWeatherByCity get "New York"
        { v with error := "Failed to fetch location. Showing default city." } ∧
    initialFetch get (.position lat lon) v =
      { city := data.city, weather := some data, error := "" } ∧
    (initialFetch get (.position lat lon) v).error ≠
      "Failed to fetch location. Showing default city." := by
  have e : initialFetch get (.position lat lon) v =
      { city := data.city, weather := some data, error := "" } := by
    simp [initialFetch, fetchWeatherByCoords, fetchWeatherByCity, hcoords, hcity]
  rw [e]
  refine ⟨?_, rfl, ?_⟩
  · simp [fetchWeatherByCoords, hcoords]
  · show ("" : String) ≠ "Failed to fetch location. Showing default city."
    decide

/-- C9, on a server that knows only the default city. -/
theorem fallback_success_clears_advisory_witness :
    initialFetch defaultCityOnly (.position "51.5" "-0.12") initialView =
      { city := "New York", weather := some clearNewYork, error := "" } :=
  (fallback_success_clears_advisory defaultCityOnly "51.5" "-0.12" initialView clearNewYork
    (by decide) (by decide)).2.1

/-- C10, on the code: a failed `fetchWeatherByCity` sets the error message
"Failed to fetch weather." and keeps the snapshot of the prior state, present or
absent; a failed `fetchWeather` sets "City not found or server error" and clears
the snapshot. -/
theorem failed_lookup_by_name (get : String → Option Snapshot) (cityName : String)
    (v : ViewState) :
    (get (cityUrl cityName) = none →
      (fetchWeatherByCity get cityName v).weather = v.weather ∧
      (fetchWeatherByCity get cityName v).error = "Failed to fetch weather.") ∧
    (get (cityUrl v.city) = none →
      (fetchWeather get v).weather = none ∧
      (fetchWeather get v).error = "City not found or server error") := by
  constructor
  · intro hget
    simp [fetchWeatherByCity, hget]
  · intro hget
    simp [fetchWeather, hget]

/-- C10, with London displayed and the server down: the automatic lookup leaves
London displayed. -/
theorem failed_lookup_by_name_witness :
    (fetchWeatherByCity serverDown "New York"
      { city := "London", weather := some rainyLondon, error := "" }).weather
      = some rainyLondon ∧
    (fetchWeather serverDown
      { city := "Atlantis", weather := some rainyLondon, error := "" }).weather = none :=
  ⟨((failed_lookup_by_name serverDown "New York"
      { city := "London", weather := some rainyLondon, error := "" }).1 rfl).1,
    ((failed_lookup_by_name serverDown "Atlantis"
      { city := "Atlantis", weather := some rainyLondon, error := "" }).2 rfl).1⟩

end Weather
